import Mathlib

/-!
Shallow embedding of the scatter worker's job-processing core
(`processJob` / `processExistingCopies` in the scatter worker's `job.ts`).

The remote record store is modelled as an oracle environment (`StoreEnv`):
each network operation the code performs is a field of the environment, and
the value the store would return is supplied by that field.  Creations are
side effects: the model returns, next to the job result, the list of records
that were durably created (`Effects.created`) and the back-link update that
was attempted (`Effects.backLinkAttempt`).  Log calls are not modelled; where
the source only logs and continues, the model simply continues.
-/

namespace Scatter

/-- JS-style property values that can appear in an entity property bag. -/
inductive Value where
  | vStr (s : String)
  | vNum (n : Int)
  | vBool (b : Bool)
  deriving DecidableEq, Repr

/-- JS truthiness of a defined value: empty string, 0 and false are falsy. -/
def Value.truthy : Value → Bool
  | .vStr s => s ≠ ""
  | .vNum n => n ≠ 0
  | .vBool b => b

/-- JS truthiness of a possibly-undefined value; `undefined` is falsy. -/
def truthyOpt : Option Value → Bool
  | none => false
  | some v => v.truthy

/-- JS template-literal stringification of a value. -/
def Value.toDisplay : Value → String
  | .vStr s => s
  | .vNum n => toString n
  | .vBool b => if b then "true" else "false"

/-- A property bag (`Record<string, unknown>`): association list, first
binding wins, mirroring JS object-spread override order. -/
abbrev Props := List (String × Value)

/-- Property lookup; `none` models JS `undefined` for an absent key. -/
def getProp (p : Props) (k : String) : Option Value :=
  match p.find? (fun kv => kv.1 == k) with
  | some kv => some kv.2
  | none => none

/-- A relationship record as sent to / read from the store.  `peer_label`
is `Option Value` because the source passes raw property values there
(e.g. `target.properties.label as string`), which may be `undefined`. -/
structure Relationship where
  predicate : String
  peer : String
  peer_type : String
  peer_label : Option Value
  deriving DecidableEq, Repr

/-- The target entity as returned by `job.fetchTarget()` (no relationships). -/
structure Target where
  id : String
  type : String
  properties : Props
  deriving DecidableEq, Repr

/-- Per-copy transient descriptor `{ id, entity_class? }` built in both paths. -/
structure CopyResult where
  id : String
  entity_class : Option Value
  deriving DecidableEq, Repr

/-- The worker's output union: a bare entity id, or a tagged routing object
`\x7b entity_id, entity_class \x7d`. -/
inductive Output where
  | ident (s : String)
  | item (entity_id : String) (entity_class : Value)
  deriving DecidableEq, Repr

/-- Classifier for a single copy, from
`copy.entity_class ? { entity_id: copy.id, entity_class: copy.entity_class } : copy.id`.
Note this is a JS truthiness test, not a presence test. -/
def classifyOne (c : CopyResult) : Output :=
  match c.entity_class with
  | some v => if v.truthy then .item c.id v else .ident c.id
  | none => .ident c.id

/-- The output-building `copies.map(...)` at the end of both paths. -/
def classifyOutputs (cs : List CopyResult) : List Output :=
  cs.map classifyOne

/-- Default number of copies (`DEFAULT_COPY_COUNT = 3`). -/
def DEFAULT_COPY_COUNT : Int := 3

/-- Batch size for concurrent creation/fetching (`BATCH_SIZE = 20`). -/
def BATCH_SIZE : Nat := 20

/-- Embeds `target.properties.label || 'Entity'` as used in template labels. -/
def labelOrEntity (props : Props) : String :=
  match getProp props "label" with
  | some v => if v.truthy then v.toDisplay else "Entity"
  | none => "Entity"

/-- Embeds the per-copy label template
`` `${target.properties.label || 'Entity'} - Copy ${i + 1}` ``. -/
def copyLabel (props : Props) (i : Nat) : String :=
  labelOrEntity props ++ " - Copy " ++ toString (i + 1)

/-- Embeds `mixEntityClass ? (i % 2 === 0 ? 'canonical' : 'mention') : undefined`. -/
def entityClassFor (mix : Bool) (i : Nat) : Option Value :=
  if mix then some (.vStr (if i % 2 == 0 then "canonical" else "mention")) else none

/-- Number of loop iterations of `for (let i = 0; i < numCopies; i++)` when
`numCopies` holds an arbitrary JS value: relational comparison coerces via
ToNumber.  Booleans coerce to 0/1; strings are parsed as numbers (approximated
here by integer parsing, non-numeric strings behaving like NaN, which yields
zero iterations); negative numbers yield zero iterations. -/
def toCount (v : Value) : Nat :=
  match v with
  | .vNum n => n.toNat
  | .vBool b => if b then 1 else 0
  | .vStr s => ((s.trim.toInt?).getD 0).toNat

/-- Embeds `(target.properties.copy_count as number) || DEFAULT_COPY_COUNT`:
the raw property value when truthy, else the number 3 (the TS cast is erased
at runtime, so the `||` applies JS truthiness to the raw value). -/
def numCopiesValue (props : Props) : Value :=
  match getProp props "copy_count" with
  | some v => if v.truthy then v else .vNum DEFAULT_COPY_COUNT
  | none => .vNum DEFAULT_COPY_COUNT

/-- Embeds strict comparison `target.properties.<k> === true`. -/
def isTrueProp (props : Props) (k : String) : Bool :=
  getProp props k == some (.vBool true)

/-- Harness-supplied job context: destination collection, actor id, clock. -/
structure JobCtx where
  target_collection : String
  agentId : String
  now : String
  deriving DecidableEq, Repr

/-- Property bag of the copy created at index `i`: the object literal
`{ ...target.properties, label, copy_index, copy_total, source_entity,
created_by, created_at, ...(entityClass && { entity_class }) }`.
The override keys are listed before the spread of the target's properties
because `getProp` takes the first binding. -/
def mkCopyProps (tgt : Target) (ctx : JobCtx) (numCopies : Value) (mix : Bool) (i : Nat) :
    Props :=
  (match entityClassFor mix i with
   | some v => [("entity_class", v)]
   | none => []) ++
  [("created_at", .vStr ctx.now),
   ("created_by", .vStr ctx.agentId),
   ("source_entity", .vStr tgt.id),
   ("copy_total", numCopies),
   ("copy_index", .vNum (i : Int)),
   ("label", .vStr (copyLabel tgt.properties i))] ++
  tgt.properties

/-- A record durably created by `POST /entities`: the request body plus the
id assigned by the store. -/
structure CreatedRecord where
  id : String
  type : String
  collection : String
  properties : Props
  relationships : List Relationship
  deriving DecidableEq, Repr

/-- The copy record created at index `i` (body of the `POST /entities` call,
including the `copy_of` relationship whose `peer_label` is the raw
`target.properties.label` value). -/
def mkCreated (tgt : Target) (ctx : JobCtx) (numCopies : Value) (mix : Bool)
    (i : Nat) (cid : String) : CreatedRecord :=
  { id := cid
    type := tgt.type
    collection := ctx.target_collection
    properties := mkCopyProps tgt ctx numCopies mix i
    relationships := [{ predicate := "copy_of", peer := tgt.id, peer_type := tgt.type,
                        peer_label := getProp tgt.properties "label" }] }

/-- Joining `Promise.all` over one batch of creation promises, results in slot
(index) order: the first rejecting slot's error is reported, otherwise the
list of per-slot `CopyResult`s.  Each promise's rejection carries the message
thrown in its `.then` continuation. -/
def collectOk (mix : Bool) : List (Nat × Except String String) → Except String (List CopyResult)
  | [] => .ok []
  | (i, .error e) :: _ => .error ("Failed to create copy " ++ toString (i + 1) ++ ": " ++ e)
  | (i, .ok cid) :: rest =>
      (collectOk mix rest).map
        (fun rs => ({ id := cid, entity_class := entityClassFor mix i } : CopyResult) :: rs)

/-- Side effects of issuing one batch of creations: every index whose
`POST /entities` succeeded has its record durably created, even if another
creation in the same batch failed (all promises of a batch are issued before
`Promise.all` is awaited, and a rejection does not undo the others). -/
def batchCreated (create : Nat → Except String String) (tgt : Target) (ctx : JobCtx)
    (numCopies : Value) (mix : Bool) (batch : List Nat) : List CreatedRecord :=
  batch.filterMap (fun k =>
    match create k with
    | .ok cid => some (mkCreated tgt ctx numCopies mix k cid)
    | .error _ => none)

/-- Awaited result of one batch: issue all creations, join with `Promise.all`. -/
def batchResults (create : Nat → Except String String) (mix : Bool) (batch : List Nat) :
    Except String (List CopyResult) :=
  collectOk mix (batch.map (fun k => (k, create k)))

/-- The batched creation loop
`for (let batchStart = 0; batchStart < numCopies; batchStart += BATCH_SIZE)`:
each round issues creations for indices `[batchStart, min(batchStart+20, total))`
concurrently, waits for all of them, and either aborts on the batch's failure
(keeping the batch's durable successes) or continues with the next batch. -/
def genFrom (create : Nat → Except String String) (tgt : Target) (ctx : JobCtx)
    (numCopies : Value) (mix : Bool) (total : Nat) (batchStart : Nat) :
    List CreatedRecord × Except String (List CopyResult) :=
  if batchStart < total then
    match batchResults create mix
        (List.range' batchStart (min (batchStart + BATCH_SIZE) total - batchStart)) with
    | .error e =>
        (batchCreated create tgt ctx numCopies mix
          (List.range' batchStart (min (batchStart + BATCH_SIZE) total - batchStart)),
         .error e)
    | .ok results =>
        (batchCreated create tgt ctx numCopies mix
           (List.range' batchStart (min (batchStart + BATCH_SIZE) total - batchStart)) ++
           (genFrom create tgt ctx numCopies mix total (batchStart + BATCH_SIZE)).1,
         ((genFrom create tgt ctx numCopies mix total (batchStart + BATCH_SIZE)).2).map
           (fun more => results ++ more))
  else ([], .ok [])
  termination_by total - batchStart
  decreasing_by all_goals simp [BATCH_SIZE]; omega

/-- The copy generation engine: the whole batched creation loop, started at
index 0, iterating over `[0, numCopies)`. -/
def generateCopies (create : Nat → Except String String) (tgt : Target) (ctx : JobCtx)
    (numCopies : Value) (mix : Bool) :
    List CreatedRecord × Except String (List CopyResult) :=
  genFrom create tgt ctx numCopies mix (toCount numCopies) 0

/-- Body of the conditional `PUT /entities/{id}` back-link update. -/
structure BackLinkAttempt where
  id : String
  expect_tip : String
  relationships_add : List Relationship
  deriving DecidableEq, Repr

/-- Embeds `copies.map((copy, i) => ({ predicate: 'has_copy', ... }))`. -/
def hasCopyRelsAdd (tgt : Target) (copies : List CopyResult) : List Relationship :=
  copies.enum.map (fun p =>
    { predicate := "has_copy", peer := p.2.id, peer_type := tgt.type,
      peer_label := some (.vStr (copyLabel tgt.properties p.1)) })

/-- The back-link phase: read the target's tip; on failure log and skip
(no update attempted); on success issue one conditional update adding one
`has_copy` relationship per copy.  The update's own error is only logged by
the source, so it does not appear in the result. -/
def backLinkPhase (tip : Except String String) (tgt : Target) (copies : List CopyResult) :
    Option BackLinkAttempt :=
  match tip with
  | .error _ => none
  | .ok cid =>
      some { id := tgt.id, expect_tip := cid, relationships_add := hasCopyRelsAdd tgt copies }

/-- An entity as returned by `GET /entities/{id}` when fetching a copy
(only the fields the reader uses: `data.id` and `data.properties`). -/
structure FetchedEntity where
  id : String
  properties : Props
  deriving DecidableEq, Repr

/-- The `.then` continuation of a copy fetch:
`{ id: data.id, entity_class: mixEntityClass ? data.properties.entity_class : undefined }`. -/
def mkFetchedCopyResult (mix : Bool) (e : FetchedEntity) : CopyResult :=
  { id := e.id, entity_class := if mix then getProp e.properties "entity_class" else none }

/-- Joining `Promise.all` over one batch of copy-fetch promises, results in
slot order. -/
def collectFetch (fetch : String → Except String FetchedEntity) (mix : Bool) :
    List Relationship → Except String (List CopyResult)
  | [] => .ok []
  | r :: rs =>
      match fetch r.peer with
      | .error e => .error ("Failed to fetch copy " ++ r.peer ++ ": " ++ e)
      | .ok data =>
          (collectFetch fetch mix rs).map (fun more => mkFetchedCopyResult mix data :: more)

/-- The batched fetch loop of the existing-copies path: round `batchStart`
fetches the relationships at positions `[batchStart, min(batchStart+20, len))`
of the filtered list, concurrently, and joins before the next round. -/
def fetchFrom (fetch : String → Except String FetchedEntity) (mix : Bool)
    (rels : List Relationship) (batchStart : Nat) : Except String (List CopyResult) :=
  if batchStart < rels.length then
    match collectFetch fetch mix ((rels.drop batchStart).take BATCH_SIZE) with
    | .error e => .error e
    | .ok results =>
        (fetchFrom fetch mix rels (batchStart + BATCH_SIZE)).map (fun more => results ++ more)
  else .ok []
  termination_by rels.length - batchStart
  decreasing_by simp [BATCH_SIZE]; omega

/-- Embeds `entityWithRels.relationships?.filter(r => r.predicate === 'has_copy') || []`:
when `relationships` is undefined, optional chaining yields undefined and the
`||` supplies `[]`; otherwise the filter result is used (a JS array, even
empty, is truthy). -/
def hasCopyFilter (orels : Option (List Relationship)) : List Relationship :=
  match orels with
  | some rels => rels.filter (fun r => r.predicate == "has_copy")
  | none => []

/-- The existing-copies path `processExistingCopies`: re-fetch the target with
relationships (failure is fatal), filter to `has_copy`, return `[]` when there
are none, otherwise batch-fetch every peer (failure is fatal) and classify.
This path creates no records and never touches the back-link update. -/
def processExistingCopies (fetchRels : Except String (Option (List Relationship)))
    (fetch : String → Except String FetchedEntity) (tgt : Target) (mix : Bool) :
    Except String (List Output) :=
  match fetchRels with
  | .error _ => .error ("Failed to fetch target entity with relationships: " ++ tgt.id)
  | .ok orels =>
      if (hasCopyFilter orels).length == 0 then .ok []
      else (fetchFrom fetch mix (hasCopyFilter orels) 0).map classifyOutputs

/-- The store oracle: the value each remote operation would return.
`create` is keyed by copy index (the request body is a function of the index);
`update` receives the conditional-update body and returns its error, if any —
the source only logs that error, so the model never consults it. -/
structure StoreEnv where
  create : Nat → Except String String
  tip : Except String String
  update : BackLinkAttempt → Option String
  fetchRels : Except String (Option (List Relationship))
  fetchCopy : String → Except String FetchedEntity

/-- Observable store side effects of one job run. -/
structure Effects where
  created : List CreatedRecord
  backLinkAttempt : Option BackLinkAttempt
  deriving DecidableEq, Repr

/-- The whole job `processJob`: read the `use_existing_copies` and
`mix_entity_class` flags, branch to the existing-copies path or run the
generation engine, then (generation path only, and only when generation
succeeded) the best-effort back-link phase, then the output classifier. -/
def processJob (env : StoreEnv) (ctx : JobCtx) (tgt : Target) :
    Effects × Except String (List Output) :=
  let useExistingCopies := isTrueProp tgt.properties "use_existing_copies"
  let mixEntityClass := isTrueProp tgt.properties "mix_entity_class"
  if useExistingCopies then
    ({ created := [], backLinkAttempt := none },
     processExistingCopies env.fetchRels env.fetchCopy tgt mixEntityClass)
  else
    match generateCopies env.create tgt ctx (numCopiesValue tgt.properties) mixEntityClass with
    | (created, .error e) => ({ created := created, backLinkAttempt := none }, .error e)
    | (created, .ok copies) =>
        ({ created := created, backLinkAttempt := backLinkPhase env.tip tgt copies },
         .ok (classifyOutputs copies))

/-- Result assembly of `Promise.all` under an explicit completion schedule:
promise `k` computes `v k` and writes it into slot `k` at its completion
time; `order` lists the slots in completion order.  `Promise.all` resolves
with the slot-ordered array, whatever the schedule. -/
def promiseAllAssemble (v : Nat → α) (dflt : α) (n : Nat) (order : List Nat) : List α :=
  order.foldl (fun acc k => acc.set k (v k)) (List.replicate n dflt)

/-! Helper lemmas about the embedding. -/

/-- The per-index copy result when creation at index `k` returned id `idOf k`. -/
def okResult (idOf : Nat → String) (mix : Bool) (k : Nat) : CopyResult :=
  { id := idOf k, entity_class := entityClassFor mix k }

theorem exceptMap_isErr {α β : Type} (f : α → β) (e : Except String α) :
    ((e.map f).toBool = false) = (e.toBool = false) := by
  cases e <;> rfl

theorem collectOk_map_ok (mix : Bool) (idOf : Nat → String) :
    ∀ l : List Nat,
      collectOk mix (l.map (fun k => (k, Except.ok (idOf k)))) =
        Except.ok (l.map (okResult idOf mix)) := by
  intro l
  induction l with
  | nil => rfl
  | cons k ks ih => simp [collectOk, ih, okResult, Except.map]

theorem batchCreated_ok (idOf : Nat → String) (tgt : Target) (ctx : JobCtx)
    (nc : Value) (mix : Bool) :
    ∀ batch : List Nat,
      batchCreated (fun k => Except.ok (idOf k)) tgt ctx nc mix batch =
        batch.map (fun k => mkCreated tgt ctx nc mix k (idOf k)) := by
  intro batch
  induction batch with
  | nil => rfl
  | cons k ks ih => simp [batchCreated, List.filterMap_cons] at ih ⊢; exact ih

theorem genFrom_allOk (idOf : Nat → String) (tgt : Target) (ctx : JobCtx)
    (nc : Value) (mix : Bool) (total : Nat) :
    ∀ d batchStart, total - batchStart ≤ d →
      genFrom (fun k => Except.ok (idOf k)) tgt ctx nc mix total batchStart =
        ((List.range' batchStart (total - batchStart)).map
           (fun k => mkCreated tgt ctx nc mix k (idOf k)),
         Except.ok ((List.range' batchStart (total - batchStart)).map (okResult idOf mix))) := by
  intro d
  induction d with
  | zero =>
      intro bs h
      have hbs : ¬ bs < total := by omega
      have h0 : total - bs = 0 := by omega
      rw [genFrom, if_neg hbs, h0]
      simp
  | succ d ih =>
      intro bs h
      by_cases hbs : bs < total
      · have hrec := ih (bs + BATCH_SIZE) (by simp [BATCH_SIZE]; omega)
        rw [genFrom, if_pos hbs, batchResults, collectOk_map_ok, hrec, batchCreated_ok]
        have hsplit : List.range' bs (min (bs + BATCH_SIZE) total - bs) ++
            List.range' (bs + BATCH_SIZE) (total - (bs + BATCH_SIZE)) =
            List.range' bs (total - bs) := by
          rcases Nat.le_total (bs + BATCH_SIZE) total with hle | hle
          · have hm : min (bs + BATCH_SIZE) total - bs = BATCH_SIZE := by omega
            have := List.range'_append bs BATCH_SIZE (total - (bs + BATCH_SIZE)) 1
            simp only [Nat.one_mul] at this
            rw [hm, this]
            congr 1
            omega
          · have hm : min (bs + BATCH_SIZE) total - bs = total - bs := by omega
            have h2 : total - (bs + BATCH_SIZE) = 0 := by omega
            rw [hm, h2]
            simp
        simp only [Except.map]
        rw [← List.map_append, ← List.map_append, hsplit]
      · have h0 : total - bs = 0 := by omega
        rw [genFrom, if_neg hbs, h0]
        simp

theorem generateCopies_allOk (idOf : Nat → String) (tgt : Target) (ctx : JobCtx)
    (nc : Value) (mix : Bool) :
    generateCopies (fun k => Except.ok (idOf k)) tgt ctx nc mix =
      ((List.range (toCount nc)).map (fun k => mkCreated tgt ctx nc mix k (idOf k)),
       Except.ok ((List.range (toCount nc)).map (okResult idOf mix))) := by
  rw [generateCopies, genFrom_allOk idOf tgt ctx nc mix (toCount nc) (toCount nc) 0 (by omega)]
  simp [List.range_eq_range']

theorem batchResults_ok_all (create : Nat → Except String String) (mix : Bool) :
    ∀ (batch : List Nat) (res : List CopyResult),
      batchResults create mix batch = Except.ok res → ∀ k ∈ batch, (create k).isOk = true := by
  intro batch
  induction batch with
  | nil => intro res _ k hk; simp at hk
  | cons j js ih =>
      intro res hres k hk
      rw [batchResults, List.map_cons] at hres
      rcases hc : create j with e | cid
      · rw [hc, collectOk] at hres
        exact absurd hres (by simp)
      · rw [hc, collectOk] at hres
        rcases List.mem_cons.mp hk with hk | hk
        · subst hk; rw [hc]; rfl
        · rcases htail : collectOk mix (js.map (fun k => (k, create k))) with e2 | res2
          · rw [htail] at hres; exact absurd hres (by simp [Except.map])
          · exact ih res2 (by rw [batchResults]; exact htail) k hk

theorem batchResults_err_of (create : Nat → Except String String) (mix : Bool) :
    ∀ (batch : List Nat) (k : Nat), k ∈ batch → (create k).isOk = false →
      (batchResults create mix batch).isOk = false := by
  intro batch
  induction batch with
  | nil => intro k hk; simp at hk
  | cons j js ih =>
      intro k hk hbad
      rw [batchResults, List.map_cons]
      rcases hc : create j with e | cid
      · rw [collectOk]; rfl
      · rw [collectOk]
        rcases List.mem_cons.mp hk with hk | hk
        · subst hk; rw [hc] at hbad; exact absurd hbad (by simp [Except.isOk, Except.toBool])
        · have hrec := ih k hk hbad
          rw [batchResults] at hrec
          rcases htail : collectOk mix (js.map (fun k => (k, create k))) with e2 | res2
          · rfl
          · rw [htail] at hrec
            exact absurd hrec (by simp [Except.isOk, Except.toBool])

theorem batchResults_err_exists (create : Nat → Except String String) (mix : Bool) :
    ∀ batch : List Nat, (batchResults create mix batch).isOk = false →
      ∃ j ∈ batch, (create j).isOk = false := by
  intro batch
  induction batch with
  | nil =>
      intro h
      exact absurd h (by rw [batchResults]; simp [collectOk, Except.isOk, Except.toBool])
  | cons j js ih =>
      intro h
      rcases hc : create j with e | cid
      · exact ⟨j, by simp, by rw [hc]; rfl⟩
      · rw [batchResults, List.map_cons, hc, collectOk] at h
        rcases htail : collectOk mix (js.map (fun k => (k, create k))) with e2 | res2
        · rcases ih (by rw [batchResults, htail]; rfl) with ⟨j2, hj2, hbad⟩
          exact ⟨j2, by simp [hj2], hbad⟩
        · rw [htail] at h
          exact absurd h (by simp [Except.map, Except.isOk, Except.toBool])

theorem mem_batchCreated (create : Nat → Except String String) (tgt : Target) (ctx : JobCtx)
    (nc : Value) (mix : Bool) (batch : List Nat) (k : Nat) (cid : String)
    (hk : k ∈ batch) (hc : create k = Except.ok cid) :
    mkCreated tgt ctx nc mix k cid ∈ batchCreated create tgt ctx nc mix batch := by
  rw [batchCreated, List.mem_filterMap]
  exact ⟨k, hk, by rw [hc]⟩

theorem genFrom_err (create : Nat → Except String String) (tgt : Target) (ctx : JobCtx)
    (nc : Value) (mix : Bool) (total : Nat) :
    ∀ d batchStart, total - batchStart ≤ d →
      ∀ k, batchStart ≤ k → k < total → (create k).isOk = false →
        ((genFrom create tgt ctx nc mix total batchStart).2).isOk = false := by
  intro d
  induction d with
  | zero => intro bs h k hk1 hk2 _; omega
  | succ d ih =>
      intro bs h k hk1 hk2 hbad
      have hbs : bs < total := by omega
      rw [genFrom, if_pos hbs]
      rcases hbatch : batchResults create mix
          (List.range' bs (min (bs + BATCH_SIZE) total - bs)) with e | results
      · rfl
      · by_cases hin : k < min (bs + BATCH_SIZE) total
        · have hmem : k ∈ List.range' bs (min (bs + BATCH_SIZE) total - bs) := by
            rw [List.mem_range'_1]; omega
          have := batchResults_ok_all create mix _ results hbatch k hmem
          rw [hbad] at this; exact absurd this (by simp)
        · have hrest := ih (bs + BATCH_SIZE) (by simp only [BATCH_SIZE] at *; omega) k
            (by simp only [BATCH_SIZE] at hin ⊢; omega) hk2 hbad
          rcases hres : (genFrom create tgt ctx nc mix total (bs + BATCH_SIZE)).2 with e2 | r2
          · rfl
          · rw [hres] at hrest
            exact absurd hrest (by simp [Except.isOk, Except.toBool])

theorem genFrom_no_rollback (create : Nat → Except String String) (tgt : Target) (ctx : JobCtx)
    (nc : Value) (mix : Bool) (total : Nat) :
    ∀ d batchStart, total - batchStart ≤ d → batchStart % BATCH_SIZE = 0 →
      ∀ k cid, batchStart ≤ k → k < total → create k = Except.ok cid →
        (∀ j, batchStart ≤ j → j < total → (create j).isOk = false →
          k / BATCH_SIZE ≤ j / BATCH_SIZE) →
        mkCreated tgt ctx nc mix k cid ∈ (genFrom create tgt ctx nc mix total batchStart).1 := by
  intro d
  induction d with
  | zero => intro bs h _ k cid hk1 hk2 _ _; omega
  | succ d ih =>
      intro bs h hmod k cid hk1 hk2 hok hfirst
      have hbs : bs < total := by omega
      rw [genFrom, if_pos hbs]
      rcases hbatch : batchResults create mix
          (List.range' bs (min (bs + BATCH_SIZE) total - bs)) with e | results
      · -- the failing batch: k must lie in this batch, and its success is kept
        have hub : (batchResults create mix
            (List.range' bs (min (bs + BATCH_SIZE) total - bs))).isOk = false := by
          rw [hbatch]; rfl
        rcases batchResults_err_exists create mix _ hub with ⟨j, hjmem, hjbad⟩
        rw [List.mem_range'_1] at hjmem
        have hjlt : j < total := by omega
        have hjdiv := hfirst j (by omega) hjlt hjbad
        have hkin : k < min (bs + BATCH_SIZE) total := by
          simp only [BATCH_SIZE] at hjmem hjdiv hmod ⊢
          omega
        exact mem_batchCreated create tgt ctx nc mix _ k cid
          (by rw [List.mem_range'_1]; omega) hok
      · by_cases hin : k < min (bs + BATCH_SIZE) total
        · exact List.mem_append_left _
            (mem_batchCreated create tgt ctx nc mix _ k cid
              (by rw [List.mem_range'_1]; omega) hok)
        · refine List.mem_append_right _ ?_
          exact ih (bs + BATCH_SIZE) (by simp only [BATCH_SIZE] at h ⊢; omega)
            (by simp only [BATCH_SIZE] at hmod ⊢; omega) k cid (by omega) hk2 hok
            (fun j hj1 hj2 hjb => hfirst j (by omega) hj2 hjb)

theorem collectFetch_map_ok (g : String → FetchedEntity) (mix : Bool) :
    ∀ rs : List Relationship,
      collectFetch (fun p => Except.ok (g p)) mix rs =
        Except.ok (rs.map (fun r => mkFetchedCopyResult mix (g r.peer))) := by
  intro rs
  induction rs with
  | nil => rfl
  | cons r rest ih => simp [collectFetch, ih, Except.map]

theorem fetchFrom_allOk (g : String → FetchedEntity) (mix : Bool) (rels : List Relationship) :
    ∀ d batchStart, rels.length - batchStart ≤ d →
      fetchFrom (fun p => Except.ok (g p)) mix rels batchStart =
        Except.ok ((rels.drop batchStart).map (fun r => mkFetchedCopyResult mix (g r.peer))) := by
  intro d
  induction d with
  | zero =>
      intro bs h
      have hbs : ¬ bs < rels.length := by omega
      rw [fetchFrom, if_neg hbs, List.drop_eq_nil_of_le (by omega)]
      rfl
  | succ d ih =>
      intro bs h
      by_cases hbs : bs < rels.length
      · rw [fetchFrom, if_pos hbs, collectFetch_map_ok,
          ih (bs + BATCH_SIZE) (by simp only [BATCH_SIZE] at h ⊢; omega)]
        simp only [Except.map]
        rw [← List.map_append]
        rw [← List.drop_drop, List.take_append_drop]
      · rw [fetchFrom, if_neg hbs, List.drop_eq_nil_of_le (by omega)]
        rfl

theorem processExistingCopies_allOk (g : String → FetchedEntity) (mix : Bool)
    (orels : Option (List Relationship)) (tgt : Target) :
    processExistingCopies (Except.ok orels) (fun p => Except.ok (g p)) tgt mix =
      Except.ok ((hasCopyFilter orels).map
        (fun r => classifyOne (mkFetchedCopyResult mix (g r.peer)))) := by
  rw [processExistingCopies]
  by_cases hz : (hasCopyFilter orels).length == 0
  · rw [if_pos hz]
    have : hasCopyFilter orels = [] := by
      cases hf : hasCopyFilter orels with
      | nil => rfl
      | cons a l => rw [hf] at hz; simp at hz
    rw [this]
    rfl
  · rw [if_neg hz, fetchFrom_allOk g mix _ (hasCopyFilter orels).length 0 (by omega)]
    simp [classifyOutputs, Except.map]

theorem processJob_existing (env : StoreEnv) (ctx : JobCtx) (tgt : Target)
    (hex : isTrueProp tgt.properties "use_existing_copies" = true) :
    processJob env ctx tgt =
      ({ created := [], backLinkAttempt := none },
       processExistingCopies env.fetchRels env.fetchCopy tgt
         (isTrueProp tgt.properties "mix_entity_class")) := by
  simp [processJob, hex]

theorem processJob_gen_allOk (env : StoreEnv) (ctx : JobCtx) (tgt : Target) (idOf : Nat → String)
    (hcreate : env.create = fun k => Except.ok (idOf k))
    (hex : isTrueProp tgt.properties "use_existing_copies" = false) :
    processJob env ctx tgt =
      ({ created := (List.range (toCount (numCopiesValue tgt.properties))).map
           (fun k => mkCreated tgt ctx (numCopiesValue tgt.properties)
             (isTrueProp tgt.properties "mix_entity_class") k (idOf k)),
         backLinkAttempt := backLinkPhase env.tip tgt
           ((List.range (toCount (numCopiesValue tgt.properties))).map
             (okResult idOf (isTrueProp tgt.properties "mix_entity_class"))) },
       Except.ok (classifyOutputs
         ((List.range (toCount (numCopiesValue tgt.properties))).map
           (okResult idOf (isTrueProp tgt.properties "mix_entity_class"))))) := by
  simp only [processJob, hex, Bool.false_eq_true, if_false, hcreate, generateCopies_allOk]

theorem foldl_set_getElem {α : Type} (v : Nat → α) :
    ∀ (order : List Nat) (acc : List α) (j : Nat),
      (order.foldl (fun a k => a.set k (v k)) acc)[j]? =
        if j ∈ order ∧ j < acc.length then some (v j) else acc[j]? := by
  intro order
  induction order with
  | nil => intro acc j; simp
  | cons k rest ih =>
      intro acc j
      rw [List.foldl_cons, ih, List.length_set]
      by_cases h2 : j < acc.length
      · by_cases h1 : j ∈ rest
        · simp [h1, h2]
        · by_cases h3 : j = k
          · subst h3
            simp [h1, h2, List.getElem?_set_self h2]
          · simp [h1, h2, h3, List.getElem?_set_ne (fun h => h3 h.symm)]
      · have e1 : (acc.set k (v k))[j]? = none :=
          List.getElem?_eq_none (by rw [List.length_set]; omega)
        have e2 : acc[j]? = none := List.getElem?_eq_none (by omega)
        simp [h2, e1, e2]

theorem promiseAllAssemble_perm {α : Type} (v : Nat → α) (dflt : α) (n : Nat)
    (order : List Nat) (h : order.Perm (List.range n)) :
    promiseAllAssemble v dflt n order = (List.range n).map v := by
  apply List.ext_getElem?
  intro j
  rw [promiseAllAssemble, foldl_set_getElem]
  have hmem : j ∈ order ↔ j < n := by rw [h.mem_iff, List.mem_range]
  by_cases hj : j < n
  · rw [if_pos ⟨hmem.mpr hj, by simp [hj]⟩, List.getElem?_map, List.getElem?_range hj]
    rfl
  · rw [if_neg (by simp [hj]), List.getElem?_replicate, if_neg hj,
      List.getElem?_eq_none (by simp; omega)]

theorem getProp_mk_copy_index (tgt : Target) (ctx : JobCtx) (nc : Value) (mix : Bool) (i : Nat) :
    getProp (mkCopyProps tgt ctx nc mix i) "copy_index" = some (.vNum (i : Int)) := by
  cases mix <;> rfl

theorem getProp_mk_copy_total (tgt : Target) (ctx : JobCtx) (nc : Value) (mix : Bool) (i : Nat) :
    getProp (mkCopyProps tgt ctx nc mix i) "copy_total" = some nc := by
  cases mix <;> rfl

theorem getProp_mk_label (tgt : Target) (ctx : JobCtx) (nc : Value) (mix : Bool) (i : Nat) :
    getProp (mkCopyProps tgt ctx nc mix i) "label" =
      some (.vStr (copyLabel tgt.properties i)) := by
  cases mix <;> rfl

theorem getProp_mk_entity_class_true (tgt : Target) (ctx : JobCtx) (nc : Value) (i : Nat) :
    getProp (mkCopyProps tgt ctx nc true i) "entity_class" =
      some (.vStr (if i % 2 == 0 then "canonical" else "mention")) := rfl

theorem getProp_mk_entity_class_false (tgt : Target) (ctx : JobCtx) (nc : Value) (i : Nat) :
    getProp (mkCopyProps tgt ctx nc false i) "entity_class" =
      getProp tgt.properties "entity_class" := rfl

theorem labelOrEntity_of_falsy (props : Props)
    (h : truthyOpt (getProp props "label") = false) : labelOrEntity props = "Entity" := by
  rw [labelOrEntity]
  cases hl : getProp props "label" with
  | none => rfl
  | some v => rw [hl, truthyOpt] at h; simp [h]

/-! Concrete fixtures used by witnesses and counterexamples. -/

/-- A concrete job context. -/
def ctx0 : JobCtx := ⟨"col", "agent", "2024-01-01T00:00:00Z"⟩

/-- A concrete id-assigning store in which every creation succeeds. -/
def cidOf : Nat → String := fun k => "c" ++ toString k

/-- A store environment in which every operation succeeds. -/
def envOk : StoreEnv :=
  { create := fun k => Except.ok (cidOf k)
    tip := Except.ok "tip-cid"
    update := fun _ => none
    fetchRels := Except.ok none
    fetchCopy := fun p => Except.ok ⟨p, []⟩ }

/-! Claim theorems. -/

/-- C2: for every copy count N ≥ 0 given to the copy generation engine (and a
store in which every creation succeeds), generation produces exactly N copies;
the created copies' `copy_index` property values are 0, ..., N-1 in order (so
they form the set \x7b0, ..., N-1\x7d); every created copy's `copy_total`
property equals N; and the engine's result is the N copy results in index
order. -/
theorem C2_generation_counts (idOf : Nat → String) (tgt : Target) (ctx : JobCtx)
    (mix : Bool) (N : Nat) :
    (generateCopies (fun k => Except.ok (idOf k)) tgt ctx (.vNum (N : Int)) mix).1.length = N ∧
    (generateCopies (fun k => Except.ok (idOf k)) tgt ctx (.vNum (N : Int)) mix).1.map
        (fun r => getProp r.properties "copy_index") =
      (List.range N).map (fun i => some (.vNum (i : Int))) ∧
    (generateCopies (fun k => Except.ok (idOf k)) tgt ctx (.vNum (N : Int)) mix).1.map
        (fun r => getProp r.properties "copy_total") =
      List.replicate N (some (.vNum (N : Int))) ∧
    (generateCopies (fun k => Except.ok (idOf k)) tgt ctx (.vNum (N : Int)) mix).2 =
      Except.ok ((List.range N).map (okResult idOf mix)) := by
  have hN : toCount (.vNum (N : Int)) = N := by simp [toCount]
  rw [generateCopies_allOk, hN]
  refine ⟨by simp, ?_, ?_, rfl⟩
  · rw [List.map_map]
    exact List.map_congr_left (fun a _ => by
      simp [Function.comp, mkCreated, getProp_mk_copy_index])
  · rw [List.map_map]
    rw [List.map_congr_left (g := fun _ => some (Value.vNum (N : Int)))
      (fun a _ => by simp [Function.comp, mkCreated, getProp_mk_copy_total])]
    simp [List.map_const]

/-- Target fixture whose property bag already carries an `entity_class`. -/
def tgtC5 : Target := ⟨"T", "thing", [("entity_class", .vStr "mention")]⟩

/-- C5 counterexample: with `mix_entity_class` false, the copy generated from
a target that itself has an `entity_class` property carries that property
(inherited through the `...target.properties` spread), contradicting the
claim that no created copy carries an `entity_class` property when
mixEntityClass is false. -/
theorem C5_counterexample :
    (generateCopies (fun k => Except.ok (cidOf k)) tgtC5 ctx0 (.vNum 1) false).1 =
      [mkCreated tgtC5 ctx0 (.vNum 1) false 0 "c0"] ∧
    getProp (mkCreated tgtC5 ctx0 (.vNum 1) false 0 "c0").properties "entity_class" =
      some (.vStr "mention") := by
  constructor
  · rw [generateCopies_allOk]; rfl
  · rfl

/-- C5 amended: when mixEntityClass is true, the copy created at index i
carries entity_class "canonical" for even i and "mention" for odd i
(overriding any value inherited from the target); when mixEntityClass is
false, the created copy's entity_class property equals the target's own
entity_class property — in particular it is absent whenever the target
carries none. -/
theorem C5_entity_class_amended (idOf : Nat → String) (tgt : Target) (ctx : JobCtx)
    (N : Nat) (mix : Bool) (i : Nat) (hi : i < N) :
    ((generateCopies (fun k => Except.ok (idOf k)) tgt ctx (.vNum (N : Int)) mix).1)[i]? =
      some (mkCreated tgt ctx (.vNum (N : Int)) mix i (idOf i)) ∧
    getProp (mkCreated tgt ctx (.vNum (N : Int)) mix i (idOf i)).properties "entity_class" =
      (if mix then some (.vStr (if i % 2 == 0 then "canonical" else "mention"))
       else getProp tgt.properties "entity_class") := by
  have hN : toCount (.vNum (N : Int)) = N := by simp [toCount]
  constructor
  · rw [generateCopies_allOk, hN, List.getElem?_map, List.getElem?_range hi]; rfl
  · cases mix
    · rw [if_neg (by simp)]
      exact getProp_mk_entity_class_false tgt ctx _ i
    · rw [if_pos rfl]
      exact getProp_mk_entity_class_true tgt ctx _ i

/-- C5 witness: the amended statement at a concrete input (N = 2, i = 1,
mixEntityClass true, a target that itself carries entity_class "mention"):
the odd-indexed copy carries "mention" by parity, not by inheritance. -/
theorem C5_witness :
    ((generateCopies (fun k => Except.ok (cidOf k)) tgtC5 ctx0 (.vNum ((2 : Nat) : Int)) true).1)[1]? =
      some (mkCreated tgtC5 ctx0 (.vNum ((2 : Nat) : Int)) true 1 (cidOf 1)) ∧
    getProp (mkCreated tgtC5 ctx0 (.vNum ((2 : Nat) : Int)) true 1 (cidOf 1)).properties
        "entity_class" =
      (if true then some (.vStr (if 1 % 2 == 0 then "canonical" else "mention"))
       else getProp tgtC5.properties "entity_class") :=
  C5_entity_class_amended cidOf tgtC5 ctx0 2 true 1 (by decide)

/-- Target fixture with no label property at all. -/
def tgtNoLabel : Target := ⟨"T", "thing", []⟩

/-- C10: for a target whose label property is absent or falsy, the copy
created at index i gets label "Entity - Copy (i+1)" (the fallback), while its
copy_of relationship carries the raw target label value as peer_label, with
no fallback — absent when the target has no label. -/
theorem C10_label_fallback (idOf : Nat → String) (tgt : Target) (ctx : JobCtx)
    (N : Nat) (mix : Bool) (i : Nat) (hi : i < N)
    (hlabel : truthyOpt (getProp tgt.properties "label") = false) :
    ((generateCopies (fun k => Except.ok (idOf k)) tgt ctx (.vNum (N : Int)) mix).1)[i]? =
      some (mkCreated tgt ctx (.vNum (N : Int)) mix i (idOf i)) ∧
    getProp (mkCreated tgt ctx (.vNum (N : Int)) mix i (idOf i)).properties "label" =
      some (.vStr ("Entity - Copy " ++ toString (i + 1))) ∧
    (mkCreated tgt ctx (.vNum (N : Int)) mix i (idOf i)).relationships =
      [{ predicate := "copy_of", peer := tgt.id, peer_type := tgt.type,
         peer_label := getProp tgt.properties "label" }] := by
  have hN : toCount (.vNum (N : Int)) = N := by simp [toCount]
  refine ⟨?_, ?_, rfl⟩
  · rw [generateCopies_allOk, hN, List.getElem?_map, List.getElem?_range hi]; rfl
  · show getProp (mkCopyProps tgt ctx (.vNum (N : Int)) mix i) "label" = _
    rw [getProp_mk_label, copyLabel, labelOrEntity_of_falsy tgt.properties hlabel]
    rfl

/-- C10 witness: concrete instance with a label-less target — the copy's
label is "Entity - Copy 1" and its copy_of relationship's peer_label is
absent (undefined). -/
theorem C10_witness :
    ((generateCopies (fun k => Except.ok (cidOf k)) tgtNoLabel ctx0
        (.vNum ((1 : Nat) : Int)) false).1)[0]? =
      some (mkCreated tgtNoLabel ctx0 (.vNum ((1 : Nat) : Int)) false 0 (cidOf 0)) ∧
    getProp (mkCreated tgtNoLabel ctx0 (.vNum ((1 : Nat) : Int)) false 0 (cidOf 0)).properties
        "label" = some (.vStr ("Entity - Copy " ++ toString (0 + 1))) ∧
    (mkCreated tgtNoLabel ctx0 (.vNum ((1 : Nat) : Int)) false 0 (cidOf 0)).relationships =
      [{ predicate := "copy_of", peer := tgtNoLabel.id, peer_type := tgtNoLabel.type,
         peer_label := getProp tgtNoLabel.properties "label" }] :=
  C10_label_fallback cidOf tgtNoLabel ctx0 1 false 0 (by decide) (by decide)

/-- Target fixture with `copy_count` 0. -/
def tgtC1 : Target := ⟨"T", "thing", [("copy_count", .vNum 0)]⟩

/-- C1 counterexample: a target whose `copy_count` property is the number 0
yields 3 record creations and 3 outputs, not 0 — the source computes
`copy_count || 3`, and 0 is falsy, so 0 falls back to the default exactly
like an absent property.  This contradicts the claim that the copy count
equals `copy_count` whenever it is present and numeric and that
`copy_count = 0` yields 0 outputs and 0 creations. -/
theorem C1_counterexample :
    (processJob envOk ctx0 tgtC1).1.created.length = 3 ∧
    (processJob envOk ctx0 tgtC1).2 =
      Except.ok [.ident "c0", .ident "c1", .ident "c2"] := by
  rw [processJob_gen_allOk envOk ctx0 tgtC1 cidOf rfl (by decide)]
  exact ⟨rfl, rfl⟩

/-- C1 amended: the copy count used by generation equals the target's
`copy_count` property whenever that property is present, numeric and
nonzero; when `copy_count` is 0 or absent, the fixed default 3 is used — in
particular a `copy_count = 0` target yields 3 outputs and 3 creations, not
0. -/
theorem C1_copy_count_amended (env : StoreEnv) (ctx : JobCtx) (tgt : Target)
    (idOf : Nat → String)
    (hcreate : env.create = fun k => Except.ok (idOf k))
    (hex : isTrueProp tgt.properties "use_existing_copies" = false) :
    (∀ n : Int, 0 < n → getProp tgt.properties "copy_count" = some (.vNum n) →
      (processJob env ctx tgt).1.created.length = n.toNat ∧
      ∃ outs, (processJob env ctx tgt).2 = Except.ok outs ∧ outs.length = n.toNat) ∧
    ((getProp tgt.properties "copy_count" = some (.vNum 0) ∨
      getProp tgt.properties "copy_count" = none) →
      (processJob env ctx tgt).1.created.length = 3 ∧
      ∃ outs, (processJob env ctx tgt).2 = Except.ok outs ∧ outs.length = 3) := by
  rw [processJob_gen_allOk env ctx tgt idOf hcreate hex]
  constructor
  · intro n hn hcc
    have hv : numCopiesValue tgt.properties = .vNum n := by
      simp [numCopiesValue, hcc, Value.truthy, hn.ne']
    rw [hv]
    have hcount : toCount (.vNum n) = n.toNat := rfl
    rw [hcount]
    exact ⟨by simp, _, rfl, by simp [classifyOutputs]⟩
  · intro hcc
    have hv : numCopiesValue tgt.properties = .vNum 3 := by
      rcases hcc with h | h
      · simp [numCopiesValue, h, Value.truthy, DEFAULT_COPY_COUNT]
      · simp [numCopiesValue, h, DEFAULT_COPY_COUNT]
    rw [hv]
    exact ⟨by simp [toCount], _, rfl, by simp [classifyOutputs, toCount]⟩

/-- Target fixture with `copy_count` 2. -/
def tgtC1w : Target := ⟨"T", "thing", [("copy_count", .vNum 2)]⟩

/-- C1 witness: the amended statement at a concrete target with
`copy_count = 2`: 2 creations and 2 outputs. -/
theorem C1_witness :
    (processJob envOk ctx0 tgtC1w).1.created.length = (2 : Int).toNat ∧
    ∃ outs, (processJob envOk ctx0 tgtC1w).2 = Except.ok outs ∧
      outs.length = (2 : Int).toNat :=
  (C1_copy_count_amended envOk ctx0 tgtC1w cidOf rfl (by decide)).1 2 (by decide) (by decide)

/-- C3: the job result — success status and the whole Output sequence — is
unchanged when the tip read and the conditional back-link update behave
differently (first conjunct, quantifying over both outcomes); and whenever
generation succeeded, the job returns the classified copies successfully no
matter what the tip read or update returned (second conjunct).  A tip-read
failure or an update conflict is only logged: both are invisible in the
returned value. -/
theorem C3_backlink_nonfatal (create : Nat → Except String String)
    (tip tip2 : Except String String) (upd upd2 : BackLinkAttempt → Option String)
    (fr : Except String (Option (List Relationship)))
    (fc : String → Except String FetchedEntity) (ctx : JobCtx) (tgt : Target) :
    (processJob ⟨create, tip, upd, fr, fc⟩ ctx tgt).2 =
      (processJob ⟨create, tip2, upd2, fr, fc⟩ ctx tgt).2 ∧
    (∀ created copies,
      generateCopies create tgt ctx (numCopiesValue tgt.properties)
          (isTrueProp tgt.properties "mix_entity_class") = (created, Except.ok copies) →
      isTrueProp tgt.properties "use_existing_copies" = false →
      (processJob ⟨create, tip, upd, fr, fc⟩ ctx tgt).2 = Except.ok (classifyOutputs copies)) := by
  constructor
  · cases hb : isTrueProp tgt.properties "use_existing_copies" with
    | true =>
        rw [processJob_existing _ ctx tgt hb, processJob_existing _ ctx tgt hb]
    | false =>
        rcases hgen : generateCopies create tgt ctx (numCopiesValue tgt.properties)
          (isTrueProp tgt.properties "mix_entity_class") with ⟨cr, res⟩
        cases res <;> simp [processJob, hb, hgen]
  · intro created copies hgen hex
    simp [processJob, hex, hgen]

/-- C3 witness: with a failing tip read and a conflicting update, the job
returns exactly the same Output sequence as with a fully successful
back-link phase, and that sequence is the successful classification of the 3
generated copies. -/
theorem C3_witness :
    (processJob ⟨fun k => Except.ok (cidOf k), Except.error "tip-unavailable",
        (fun _ => some "conflict"), Except.ok none, fun p => Except.ok ⟨p, []⟩⟩
      ctx0 tgtNoLabel).2 =
      (processJob ⟨fun k => Except.ok (cidOf k), Except.ok "tip-cid",
        (fun _ => none), Except.ok none, fun p => Except.ok ⟨p, []⟩⟩ ctx0 tgtNoLabel).2 ∧
    (processJob ⟨fun k => Except.ok (cidOf k), Except.error "tip-unavailable",
        (fun _ => some "conflict"), Except.ok none, fun p => Except.ok ⟨p, []⟩⟩
      ctx0 tgtNoLabel).2 =
      Except.ok (classifyOutputs ((List.range 3).map (okResult cidOf false))) := by
  have h := C3_backlink_nonfatal (fun k => Except.ok (cidOf k))
    (Except.error "tip-unavailable") (Except.ok "tip-cid")
    (fun _ => some "conflict") (fun _ => none) (Except.ok none)
    (fun p => Except.ok ⟨p, []⟩) ctx0 tgtNoLabel
  exact ⟨h.1, h.2 _ _ (generateCopies_allOk cidOf tgtNoLabel ctx0 _ _) (by decide)⟩

/-- C4: in existing-copies mode the job creates no records and attempts no
back-link update; when the relationship re-fetch and all peer fetches
succeed, the job succeeds with exactly one output per `has_copy`
relationship of the re-fetched target — whatever the target's `copy_count`
property — and zero `has_copy` relationships yield the empty output
sequence, not an error. -/
theorem C4_existing_mode (env : StoreEnv) (ctx : JobCtx) (tgt : Target)
    (orels : Option (List Relationship)) (g : String → FetchedEntity)
    (hex : isTrueProp tgt.properties "use_existing_copies" = true)
    (hrels : env.fetchRels = Except.ok orels)
    (hfetch : env.fetchCopy = fun p => Except.ok (g p)) :
    (processJob env ctx tgt).1.created = [] ∧
    (processJob env ctx tgt).1.backLinkAttempt = none ∧
    ∃ outs, (processJob env ctx tgt).2 = Except.ok outs ∧
      outs.length = (hasCopyFilter orels).length := by
  rw [processJob_existing env ctx tgt hex, hrels, hfetch, processExistingCopies_allOk]
  exact ⟨rfl, rfl, _, rfl, by simp⟩

/-- Target fixture in existing-copies mode, with a nonzero `copy_count`
that must be ignored. -/
def tgtExisting : Target :=
  ⟨"T", "thing", [("use_existing_copies", .vBool true), ("copy_count", .vNum 7)]⟩

/-- C4 witness: concrete existing-copies run over a target whose re-fetched
relationship list holds two `has_copy` entries and one other predicate, and
whose `copy_count` is 7: no creations, no back-link attempt, and exactly 2
outputs. -/
theorem C4_witness :
    (processJob ⟨fun k => Except.ok (cidOf k), Except.ok "tip-cid", (fun _ => none),
        Except.ok (some [⟨"has_copy", "p1", "thing", none⟩, ⟨"other", "p2", "thing", none⟩,
          ⟨"has_copy", "p3", "thing", none⟩]),
        fun p => Except.ok ⟨p, []⟩⟩ ctx0 tgtExisting).1.created = [] ∧
    (processJob ⟨fun k => Except.ok (cidOf k), Except.ok "tip-cid", (fun _ => none),
        Except.ok (some [⟨"has_copy", "p1", "thing", none⟩, ⟨"other", "p2", "thing", none⟩,
          ⟨"has_copy", "p3", "thing", none⟩]),
        fun p => Except.ok ⟨p, []⟩⟩ ctx0 tgtExisting).1.backLinkAttempt = none ∧
    ∃ outs, (processJob ⟨fun k => Except.ok (cidOf k), Except.ok "tip-cid", (fun _ => none),
        Except.ok (some [⟨"has_copy", "p1", "thing", none⟩, ⟨"other", "p2", "thing", none⟩,
          ⟨"has_copy", "p3", "thing", none⟩]),
        fun p => Except.ok ⟨p, []⟩⟩ ctx0 tgtExisting).2 = Except.ok outs ∧
      outs.length = (hasCopyFilter (some [⟨"has_copy", "p1", "thing", none⟩,
        ⟨"other", "p2", "thing", none⟩, ⟨"has_copy", "p3", "thing", none⟩])).length :=
  C4_existing_mode _ ctx0 tgtExisting _ (fun p => ⟨p, []⟩) (by decide) rfl rfl

/-- C6 counterexample: a CopyResult whose entity_class is present but the
empty string (present, falsy) is classified as a bare identifier, not as a
tagged object — refuting the claim that presence alone yields a tagged
object. -/
theorem C6_counterexample :
    (({ id := "x", entity_class := some (.vStr "") } : CopyResult)).entity_class.isSome = true ∧
    classifyOne { id := "x", entity_class := some (.vStr "") } = .ident "x" := by
  exact ⟨rfl, rfl⟩

/-- C6 amended: the classifier emits a tagged object exactly for a present
and truthy (JS-non-falsy) entity_class and the bare identifier otherwise;
and for every completion schedule of a batch (any permutation of the slots),
the assembled and classified Output sequence equals the classification in
slot (copy index) order — completion order is invisible. -/
theorem C6_classifier_amended (v : Nat → CopyResult) (dflt : CopyResult) (n : Nat)
    (order : List Nat) (hperm : order.Perm (List.range n)) :
    classifyOutputs (promiseAllAssemble v dflt n order) =
      (List.range n).map (fun k => classifyOne (v k)) ∧
    ∀ c : CopyResult,
      (truthyOpt c.entity_class = true →
        ∃ w, c.entity_class = some w ∧ classifyOne c = .item c.id w) ∧
      (truthyOpt c.entity_class = false → classifyOne c = .ident c.id) := by
  constructor
  · rw [promiseAllAssemble_perm v dflt n order hperm, classifyOutputs, List.map_map]
    rfl
  · intro c
    constructor
    · intro ht
      cases hec : c.entity_class with
      | none => rw [hec, truthyOpt] at ht; exact absurd ht (by simp)
      | some w =>
          rw [hec, truthyOpt] at ht
          exact ⟨w, rfl, by simp [classifyOne, hec, ht]⟩
    · intro hf
      cases hec : c.entity_class with
      | none => simp [classifyOne, hec]
      | some w =>
          rw [hec, truthyOpt] at hf
          simp [classifyOne, hec, hf]

/-- C6 witness: a concrete batch of three copy results assembled under the
out-of-order completion schedule [2, 0, 1] still classifies in slot order,
and the classifier instances at truthy and falsy entity_class behave as
stated. -/
theorem C6_witness :
    classifyOutputs (promiseAllAssemble
        (fun k => { id := "x" ++ toString k, entity_class := none }) ⟨"d", none⟩ 3 [2, 0, 1]) =
      (List.range 3).map (fun k =>
        classifyOne { id := "x" ++ toString k, entity_class := none }) ∧
    ∀ c : CopyResult,
      (truthyOpt c.entity_class = true →
        ∃ w, c.entity_class = some w ∧ classifyOne c = .item c.id w) ∧
      (truthyOpt c.entity_class = false → classifyOne c = .ident c.id) :=
  C6_classifier_amended (fun k => { id := "x" ++ toString k, entity_class := none })
    ⟨"d", none⟩ 3 [2, 0, 1] (by decide)

/-- C7: if any single copy-creation request fails, the whole job fails (the
result is not a success), and every copy whose creation succeeded in a batch
no later than the first failing batch — earlier completed batches and
same-batch concurrent successes — is still among the durably created
records: nothing is rolled back. -/
theorem C7_failfast_no_rollback (env : StoreEnv) (ctx : JobCtx) (tgt : Target) (f : Nat)
    (hex : isTrueProp tgt.properties "use_existing_copies" = false)
    (hf : f < toCount (numCopiesValue tgt.properties))
    (hbad : (env.create f).isOk = false) :
    ((processJob env ctx tgt).2).isOk = false ∧
    (∀ k cid, k < toCount (numCopiesValue tgt.properties) → env.create k = Except.ok cid →
      (∀ j, j < toCount (numCopiesValue tgt.properties) → (env.create j).isOk = false →
        k / BATCH_SIZE ≤ j / BATCH_SIZE) →
      mkCreated tgt ctx (numCopiesValue tgt.properties)
        (isTrueProp tgt.properties "mix_entity_class") k cid ∈
        (processJob env ctx tgt).1.created) := by
  have herr := genFrom_err env.create tgt ctx (numCopiesValue tgt.properties)
    (isTrueProp tgt.properties "mix_entity_class")
    (toCount (numCopiesValue tgt.properties)) (toCount (numCopiesValue tgt.properties)) 0
    (by omega) f (by omega) hf hbad
  rcases hgen : genFrom env.create tgt ctx (numCopiesValue tgt.properties)
      (isTrueProp tgt.properties "mix_entity_class")
      (toCount (numCopiesValue tgt.properties)) 0 with ⟨created, res⟩
  rw [hgen] at herr
  cases res with
  | ok r => exact absurd herr (by simp [Except.isOk, Except.toBool])
  | error e =>
      have hpj : processJob env ctx tgt =
          ({ created := created, backLinkAttempt := none }, Except.error e) := by
        simp [processJob, hex, generateCopies, hgen]
      rw [hpj]
      refine ⟨rfl, ?_⟩
      intro k cid hk hok hfirst
      have hmem := genFrom_no_rollback env.create tgt ctx (numCopiesValue tgt.properties)
        (isTrueProp tgt.properties "mix_entity_class")
        (toCount (numCopiesValue tgt.properties)) (toCount (numCopiesValue tgt.properties)) 0
        (by omega) (by simp [BATCH_SIZE]) k cid (by omega) hk hok
        (fun j _ hj2 hjb => hfirst j hj2 hjb)
      rw [hgen] at hmem
      exact hmem

/-- Store environment whose creation fails exactly at copy index 1. -/
def envFail : StoreEnv :=
  { create := fun k => if k == 1 then Except.error "boom" else Except.ok (cidOf k)
    tip := Except.ok "tip-cid"
    update := fun _ => none
    fetchRels := Except.ok none
    fetchCopy := fun p => Except.ok ⟨p, []⟩ }

/-- C7 witness: with the default 3 copies and creation failing at index 1,
the job fails, yet the concurrently succeeded same-batch copy at index 2 is
still among the created records. -/
theorem C7_witness :
    ((processJob envFail ctx0 tgtNoLabel).2).isOk = false ∧
    mkCreated tgtNoLabel ctx0 (numCopiesValue tgtNoLabel.properties)
      (isTrueProp tgtNoLabel.properties "mix_entity_class") 2 (cidOf 2) ∈
      (processJob envFail ctx0 tgtNoLabel).1.created := by
  have h := C7_failfast_no_rollback envFail ctx0 tgtNoLabel 1 (by decide) (by decide) (by decide)
  exact ⟨h.1, h.2 2 (cidOf 2) (by decide) rfl (by decide)⟩

/-- C8: in existing-copies mode with mix_entity_class true, a fetched copy
whose entity_class property is present but falsy (the empty string) is
emitted as a bare identifier, not a tagged object: the classifier tests JS
truthiness of entity_class, not presence. -/
theorem C8_truthiness_not_presence (env : StoreEnv) (ctx : JobCtx) (tgt : Target)
    (p pt : String) (pl : Option Value) (cid : String) (cprops : Props)
    (hex : isTrueProp tgt.properties "use_existing_copies" = true)
    (hmix : isTrueProp tgt.properties "mix_entity_class" = true)
    (hrels : env.fetchRels = Except.ok (some [⟨"has_copy", p, pt, pl⟩]))
    (hfetch : env.fetchCopy = fun _ => Except.ok ⟨cid, cprops⟩)
    (hec : getProp cprops "entity_class" = some (.vStr "")) :
    (getProp cprops "entity_class").isSome = true ∧
    (processJob env ctx tgt).2 = Except.ok [.ident cid] := by
  refine ⟨by rw [hec]; rfl, ?_⟩
  rw [processJob_existing env ctx tgt hex, hrels, hfetch, hmix,
    processExistingCopies_allOk (fun _ => ⟨cid, cprops⟩) true (some [⟨"has_copy", p, pt, pl⟩]) tgt]
  have hfil : hasCopyFilter (some [(⟨"has_copy", p, pt, pl⟩ : Relationship)]) =
      [⟨"has_copy", p, pt, pl⟩] := rfl
  rw [hfil, List.map_cons, List.map_nil]
  have hmk : mkFetchedCopyResult true ⟨cid, cprops⟩ =
      { id := cid, entity_class := getProp cprops "entity_class" } := rfl
  rw [hmk, hec]
  rfl

/-- Copy-properties fixture whose entity_class is present but empty. -/
def cpropsEmpty : Props := [("entity_class", .vStr "")]

/-- Target fixture in existing-copies mode with mix_entity_class true. -/
def tgtMixExisting : Target :=
  ⟨"T", "thing", [("use_existing_copies", .vBool true), ("mix_entity_class", .vBool true)]⟩

/-- C8 witness: the statement at a concrete existing-copies run whose single
fetched copy has `entity_class: ""` — the output is the bare identifier. -/
theorem C8_witness :
    (getProp cpropsEmpty "entity_class").isSome = true ∧
    (processJob ⟨fun k => Except.ok (cidOf k), Except.ok "tip-cid", (fun _ => none),
        Except.ok (some [⟨"has_copy", "p1", "thing", none⟩]),
        fun _ => Except.ok ⟨"copy-1", cpropsEmpty⟩⟩ ctx0 tgtMixExisting).2 =
      Except.ok [.ident "copy-1"] :=
  C8_truthiness_not_presence _ ctx0 tgtMixExisting "p1" "thing" none "copy-1" cpropsEmpty
    (by decide) (by decide) rfl rfl (by decide)

/-- C9: in existing-copies mode (all fetches succeeding), the Output
sequence is exactly the filter of the re-fetched target's relationship
sequence to predicate `has_copy`, classified peer by peer in place — so the
emitted order equals the order in which the `has_copy` relationships appear
on the target record. -/
theorem C9_existing_output_order (env : StoreEnv) (ctx : JobCtx) (tgt : Target)
    (rels : List Relationship) (g : String → FetchedEntity)
    (hex : isTrueProp tgt.properties "use_existing_copies" = true)
    (hrels : env.fetchRels = Except.ok (some rels))
    (hfetch : env.fetchCopy = fun p => Except.ok (g p)) :
    (processJob env ctx tgt).2 = Except.ok
      ((rels.filter (fun r => r.predicate == "has_copy")).map
        (fun r => classifyOne (mkFetchedCopyResult
          (isTrueProp tgt.properties "mix_entity_class") (g r.peer)))) := by
  rw [processJob_existing env ctx tgt hex, hrels, hfetch, processExistingCopies_allOk]
  rfl

/-- C9 witness: a concrete relationship sequence (has_copy "a", other,
has_copy "b") yields outputs for "a" then "b", in that order. -/
theorem C9_witness :
    (processJob ⟨fun k => Except.ok (cidOf k), Except.ok "tip-cid", (fun _ => none),
        Except.ok (some [⟨"has_copy", "a", "thing", none⟩, ⟨"other", "x", "thing", none⟩,
          ⟨"has_copy", "b", "thing", none⟩]),
        fun p => Except.ok ⟨p, []⟩⟩ ctx0 tgtExisting).2 = Except.ok
      (([(⟨"has_copy", "a", "thing", none⟩ : Relationship), ⟨"other", "x", "thing", none⟩,
          ⟨"has_copy", "b", "thing", none⟩].filter (fun r => r.predicate == "has_copy")).map
        (fun r => classifyOne (mkFetchedCopyResult
          (isTrueProp tgtExisting.properties "mix_entity_class")
          ((fun p => (⟨p, []⟩ : FetchedEntity)) r.peer)))) :=
  C9_existing_output_order _ ctx0 tgtExisting _ (fun p => ⟨p, []⟩) (by decide) rfl rfl

end Scatter
